import Mathlib

/-
Verification of the progress-recording and course-aggregation logic of the
e-learning dashboard (the server action file exporting saveActivityProgress
and its helper updateCourseProgress).

Shallow embedding conventions:
* The row store (Supabase tables activities / courses / user_courses /
  user_progress) is a pure `DB` value; every `select` is a pure read,
  every `insert`/`update` a pure transformation of that value.
* `.single()` lookups with equality filters are modelled by `List.find?`
  with the same filters (the store's behaviour under the row-uniqueness
  invariants the code relies on).
* Row ids (uuids in the source) are `Nat`; fresh ids come from `DB.nextId`.
* JS numbers carried by rows are `Int` (scores) and `Nat` (time-spent,
  counters); JS `Math.round` on the exact rational quotient is `jsRound`.
* Timestamp columns (created_at / updated_at) carry no claim-relevant
  information and are omitted from the row types.
* Every issued SQL `update` statement is additionally logged in an
  `UpdateStmt` trace recording its table and its equality filters, so that
  authorization-scoping claims about the statements themselves can be
  stated.
* The happy-path store never faults, so the `PersistenceError` branch of
  the source (surfacing a store error message) is unreachable here; the
  two remaining failure exits of saveActivityProgress are the tags below.
-/

namespace IIC

/-- JS Math.round applied to the exact quotient num / den (den positive in
every use below): rounds to the nearest integer, halves toward positive
infinity, i.e. the floor of num / den + 1/2. Written with integer floor
division so it is kernel-computable; jsRound_eq_floor below proves it equal
to the rational floor expression. -/
def jsRound (num : Int) (den : Nat) : Int := (2 * num + den) / (2 * (den : Int))

/-- JS fallback `a || b` on an optional number: `undefined` and `0` are
falsy, any other (natural) number is truthy. -/
def jsOr (a : Option Nat) (b : Nat) : Nat :=
  match a with
  | some t => if t = 0 then b else t
  | none => b

/-- Row of the `activities` table (the columns this logic reads). -/
structure Activity where
  id : Nat
  course_id : Nat
  status : String
  deriving Repr, DecidableEq

/-- Row of the `courses` table (the columns this logic reads/writes). -/
structure Course where
  id : Nat
  total_enrollment : Nat
  deriving Repr, DecidableEq

/-- Row of the `user_courses` (enrollment) table. -/
structure UserCourse where
  id : Nat
  user_id : Nat
  course_id : Nat
  progress : Int
  score : Int
  deriving Repr, DecidableEq

/-- Row of the `user_progress` table. -/
structure UserProgress where
  id : Nat
  user_id : Nat
  activity_id : Nat
  course_id : Nat
  score : Int
  completed : Bool
  answers : Option String
  time_spent : Nat
  deriving Repr, DecidableEq

/-- The four tables plus a fresh-id source. -/
structure DB where
  activities : List Activity
  courses : List Course
  user_courses : List UserCourse
  user_progress : List UserProgress
  nextId : Nat
  deriving Repr, DecidableEq

/-- A logged SQL update statement: target table and the equality filters
(`.eq(column, value)`) appended to it. -/
structure UpdateStmt where
  table : String
  filters : List (String × Nat)
  deriving Repr, DecidableEq

/-- An update statement carries an explicit equality filter on the acting
user's id. -/
def UpdateStmt.hasUserEq (uid : Nat) (s : UpdateStmt) : Bool :=
  s.filters.any (fun f => f == ("user_id", uid))

/-- The two failure tags reachable in the pure model (the store itself
never faults here, so the source's PersistenceError exit is unreachable). -/
inductive SaveError where
  | Unauthenticated
  | NotFound
  deriving Repr, DecidableEq

/-- Select of all published activities of a course:
`from("activities").select("id").eq("course_id", courseId).eq("status", "published")`. -/
def publishedActivities (db : DB) (courseId : Nat) : List Activity :=
  db.activities.filter (fun a => a.course_id == courseId && a.status == "published")

/-- Select of the user's completed progress rows of a course:
`from("user_progress").select("*").eq("user_id", userId).eq("course_id", courseId).eq("completed", true)`.
Note: there is no filter on the activity's published status. -/
def completedRows (db : DB) (userId courseId : Nat) : List UserProgress :=
  db.user_progress.filter (fun p => p.user_id == userId && p.course_id == courseId && p.completed)

/-- Single-row select of the (user, course) enrollment row:
`from("user_courses").select("*").eq("user_id", ...).eq("course_id", ...).single()`. -/
def enrollmentFor (db : DB) (userId courseId : Nat) : Option UserCourse :=
  db.user_courses.find? (fun uc => uc.user_id == userId && uc.course_id == courseId)

/-- Single-row select of the (user, activity) progress row. -/
def progressFor (db : DB) (userId activityId : Nat) : Option UserProgress :=
  db.user_progress.find? (fun p => p.user_id == userId && p.activity_id == activityId)

/-- The score sum `completedActivities.reduce((sum, activity) => sum + (activity.score || 0), 0)`
of the aggregator (on `Int`, `score || 0` is `score`, since `0 || 0 = 0`). -/
def sumScores (l : List UserProgress) : Int := l.foldl (fun sum p => sum + p.score) 0

/-- The Course Aggregator `updateCourseProgress(userId, courseId, supabase)`.
Returns the new store plus the trace of issued update statements.
`Math.round((completedCount / totalActivities) * 100)` is computed on the
exact rational quotient, where it equals
`Math.round(completedCount * 100 / totalActivities)`. -/
def updateCourseProgress (userId courseId : Nat) (db : DB) : DB × List UpdateStmt :=
  let activities := publishedActivities db courseId
  if activities.isEmpty then (db, [])
  else
    let completedActivities := completedRows db userId courseId
    let totalActivities := activities.length
    let completedCount := completedActivities.length
    let progressPercentage := jsRound (completedCount * 100) totalActivities
    let totalScore : Int := sumScores completedActivities
    let averageScore :=
      if completedCount > 0 then jsRound totalScore completedCount else 0
    match enrollmentFor db userId courseId with
    | some existingUserCourse =>
        ({ db with
            user_courses := db.user_courses.map (fun r =>
              if r.id == existingUserCourse.id && r.user_id == userId then
                { r with progress := progressPercentage, score := averageScore }
              else r) },
         [{ table := "user_courses",
            filters := [("id", existingUserCourse.id), ("user_id", userId)] }])
    | none =>
        ({ db with
            user_courses := db.user_courses ++
              [{ id := db.nextId, user_id := userId, course_id := courseId,
                 progress := progressPercentage, score := averageScore }],
            nextId := db.nextId + 1 },
         [])

/-- The auto-enrollment block of saveActivityProgress: if no enrollment row
exists for (user, course), insert one with progress 0 and score 0, then
read the course's total_enrollment and write back
`(course?.total_enrollment || 0) + 1` filtered only by the course id
(on `Nat`, `total_enrollment || 0` equals `total_enrollment`). -/
def autoEnroll (uid courseId : Nat) (db : DB) : DB × List UpdateStmt :=
  match enrollmentFor db uid courseId with
  | some _ => (db, [])
  | none =>
      let newEnrollment : UserCourse :=
        { id := db.nextId, user_id := uid, course_id := courseId, progress := 0, score := 0 }
      let db1 : DB := { db with
        user_courses := db.user_courses ++ [newEnrollment],
        nextId := db.nextId + 1 }
      let course := db1.courses.find? (fun c => c.id == courseId)
      let newTotal := (match course with | some c => c.total_enrollment | none => 0) + 1
      let db2 : DB := { db1 with
        courses := db1.courses.map (fun c =>
          if c.id == courseId then { c with total_enrollment := newTotal } else c) }
      (db2, [{ table := "courses", filters := [("id", courseId)] }])

/-- The exposed operation `saveActivityProgress(activityId, score, completed,
answers?, timeSpent?)`. `user` is the auth provider's answer (`none` when no
valid session exists). Returns the tagged result (on success, the rows the
trailing `.select()` yields), the new store, and the update-statement trace.
The source guards the update branch with `existingProgress && existingProgress.id`;
a stored row always has a (truthy) uuid id, so the guard is row existence. -/
def saveActivityProgress (user : Option Nat) (activityId : Nat) (score : Int)
    (completed : Bool) (answers : Option String) (timeSpent : Option Nat)
    (db : DB) : Except SaveError (List UserProgress) × DB × List UpdateStmt :=
  match user with
  | none => (Except.error SaveError.Unauthenticated, db, [])
  | some uid =>
    match db.activities.find? (fun a => a.id == activityId) with
    | none => (Except.error SaveError.NotFound, db, [])
    | some activity =>
      let enrollStep := autoEnroll uid activity.course_id db
      let db1 := enrollStep.1
      let existingProgress := progressFor db1 uid activityId
      let time_spent := jsOr timeSpent (jsOr (existingProgress.map (fun p => p.time_spent)) 0)
      match existingProgress with
      | some ep =>
        let updatedRow : UserProgress :=
          { id := ep.id, user_id := uid, activity_id := activityId,
            course_id := activity.course_id, score := score, completed := completed,
            answers := answers, time_spent := time_spent }
        let db2 : DB := { db1 with
          user_progress := db1.user_progress.map (fun r =>
            if r.id == ep.id && r.user_id == uid then { updatedRow with id := r.id }
            else r) }
        let aggStep := updateCourseProgress uid activity.course_id db2
        (Except.ok [updatedRow], aggStep.1,
         enrollStep.2 ++
           [{ table := "user_progress", filters := [("id", ep.id), ("user_id", uid)] }] ++
           aggStep.2)
      | none =>
        let newRow : UserProgress :=
          { id := db1.nextId, user_id := uid, activity_id := activityId,
            course_id := activity.course_id, score := score, completed := completed,
            answers := answers, time_spent := time_spent }
        let db2 := { db1 with
          user_progress := db1.user_progress ++ [newRow],
          nextId := db1.nextId + 1 }
        let aggStep := updateCourseProgress uid activity.course_id db2
        (Except.ok [newRow], aggStep.1, enrollStep.2 ++ aggStep.2)

/-- The progress percentage the aggregator computes for (user, course):
Math.round of 100 times the number of the user's completed progress rows of
the course over the number of the course's published activities. -/
def aggProgress (db : DB) (userId courseId : Nat) : Int :=
  jsRound ((completedRows db userId courseId).length * 100) (publishedActivities db courseId).length

/-- The average score the aggregator computes for (user, course). -/
def aggScore (db : DB) (userId courseId : Nat) : Int :=
  if (completedRows db userId courseId).length > 0 then
    jsRound (sumScores (completedRows db userId courseId)) (completedRows db userId courseId).length
  else 0

/-- Number of progress rows stored for a (user, activity) pair. -/
def progressCountFor (db : DB) (userId activityId : Nat) : Nat :=
  db.user_progress.countP (fun p => p.user_id == userId && p.activity_id == activityId)

/-- Number of enrollment rows stored for a (user, course) pair. -/
def enrollCountFor (db : DB) (userId courseId : Nat) : Nat :=
  db.user_courses.countP (fun uc => uc.user_id == userId && uc.course_id == courseId)

/-- Modelled from the spec's words, for comparison against the code: the
number of the user's completed, published activities of the course, i.e.
completed progress rows whose activity is a published activity of the
course. The code's aggregator uses `completedRows`, which does not consult
the activity's published status. -/
def specCompletedPublishedCount (db : DB) (userId courseId : Nat) : Nat :=
  (completedRows db userId courseId).countP (fun p =>
    (publishedActivities db courseId).any (fun a => a.id == p.activity_id))

/-- A sequence of saveActivityProgress calls by one user on one activity,
threading the store; only the store is kept. -/
def runSaves (uid activityId : Nat) (inputs : List (Int × Bool × Option String × Option Nat))
    (db : DB) : DB :=
  inputs.foldl
    (fun d i => (saveActivityProgress (some uid) activityId i.1 i.2.1 i.2.2.1 i.2.2.2 d).2.1) db

/-- Store well-formedness the code relies on: row ids are unique per table
and below the fresh-id source. -/
def DB.WF (db : DB) : Prop :=
  (db.user_progress.map (fun p => p.id)).Nodup ∧
  (db.user_courses.map (fun uc => uc.id)).Nodup ∧
  (db.courses.map (fun c => c.id)).Nodup ∧
  (∀ p ∈ db.user_progress, p.id < db.nextId) ∧
  (∀ uc ∈ db.user_courses, uc.id < db.nextId)

/-- Concrete store: course 1 has published activity 10 and draft activity 11;
user 7 has completed both (scores 80 and 100) and is enrolled (row 3). -/
def dbDraftCompleted : DB :=
  { activities := [{ id := 10, course_id := 1, status := "published" },
                   { id := 11, course_id := 1, status := "draft" }],
    courses := [{ id := 1, total_enrollment := 5 }],
    user_courses := [{ id := 3, user_id := 7, course_id := 1, progress := 0, score := 0 }],
    user_progress :=
      [{ id := 20, user_id := 7, activity_id := 10, course_id := 1,
         score := 80, completed := true, answers := none, time_spent := 0 },
       { id := 21, user_id := 7, activity_id := 11, course_id := 1,
         score := 100, completed := true, answers := none, time_spent := 0 }],
    nextId := 30 }

/-- Concrete store: user 7 is enrolled in course 1 and has one prior progress
row on activity 10 with 50 seconds of stored time-spent. -/
def dbPriorTime : DB :=
  { activities := [{ id := 10, course_id := 1, status := "published" }],
    courses := [{ id := 1, total_enrollment := 5 }],
    user_courses := [{ id := 3, user_id := 7, course_id := 1, progress := 100, score := 80 }],
    user_progress :=
      [{ id := 20, user_id := 7, activity_id := 10, course_id := 1,
         score := 80, completed := true, answers := none, time_spent := 50 }],
    nextId := 30 }

/-- Concrete store: course 1 with two published activities and no rows at all
for user 7. -/
def dbFresh : DB :=
  { activities := [{ id := 10, course_id := 1, status := "published" },
                   { id := 11, course_id := 1, status := "published" }],
    courses := [{ id := 1, total_enrollment := 5 }],
    user_courses := [],
    user_progress := [],
    nextId := 30 }

/-- Concrete store: user 7 enrolled in course 1 and both of its published
activities completed with score 100. -/
def dbBothDone : DB :=
  { activities := [{ id := 10, course_id := 1, status := "published" },
                   { id := 11, course_id := 1, status := "published" }],
    courses := [{ id := 1, total_enrollment := 5 }],
    user_courses := [{ id := 3, user_id := 7, course_id := 1, progress := 100, score := 100 }],
    user_progress :=
      [{ id := 20, user_id := 7, activity_id := 10, course_id := 1,
         score := 100, completed := true, answers := none, time_spent := 10 },
       { id := 21, user_id := 7, activity_id := 11, course_id := 1,
         score := 100, completed := true, answers := none, time_spent := 10 }],
    nextId := 30 }

/-- The outcome of the insert branch of saveActivityProgress (no prior
progress row), spelled out for rewriting; save_insert_eq proves it equal to
the operation's result. -/
def saveInsertOutcome (uid aid : Nat) (s : Int) (cb : Bool) (ans : Option String)
    (ts : Option Nat) (cid : Nat) (db : DB) :
    Except SaveError (List UserProgress) × DB × List UpdateStmt :=
  let db1 := (autoEnroll uid cid db).1
  let row : UserProgress :=
    { id := db1.nextId, user_id := uid, activity_id := aid, course_id := cid,
      score := s, completed := cb, answers := ans, time_spent := jsOr ts 0 }
  let db2 : DB := { db1 with
    user_progress := db1.user_progress ++ [row],
    nextId := db1.nextId + 1 }
  (Except.ok [row], (updateCourseProgress uid cid db2).1,
   (autoEnroll uid cid db).2 ++ (updateCourseProgress uid cid db2).2)

/-- The outcome of the update branch of saveActivityProgress (prior progress
row ep), spelled out for rewriting; save_update_eq proves it equal to the
operation's result. -/
def saveUpdateOutcome (uid aid : Nat) (s : Int) (cb : Bool) (ans : Option String)
    (ts : Option Nat) (cid : Nat) (ep : UserProgress) (db : DB) :
    Except SaveError (List UserProgress) × DB × List UpdateStmt :=
  let db1 := (autoEnroll uid cid db).1
  let row : UserProgress :=
    { id := ep.id, user_id := uid, activity_id := aid, course_id := cid,
      score := s, completed := cb, answers := ans,
      time_spent := jsOr ts (jsOr (some ep.time_spent) 0) }
  let db2 : DB := { db1 with
    user_progress := db1.user_progress.map (fun r =>
      if r.id == ep.id && r.user_id == uid then { row with id := r.id } else r) }
  (Except.ok [row], (updateCourseProgress uid cid db2).1,
   (autoEnroll uid cid db).2 ++
     [{ table := "user_progress", filters := [("id", ep.id), ("user_id", uid)] }] ++
     (updateCourseProgress uid cid db2).2)

/-! ### Arithmetic facts about jsRound -/

/-- The integer floor-division form of jsRound agrees with Math.round's
floor-of-quotient-plus-half semantics on the exact rational quotient. -/
theorem jsRound_eq_floor (num : Int) (den : Nat) (h : 0 < den) :
    jsRound num den = Int.floor ((num : ℚ) / (den : ℚ) + 1/2) := by
  have hd : ((den : ℚ)) ≠ 0 := by positivity
  have hrw : ((num : ℚ) / (den : ℚ) + 1/2)
      = ((2 * num + den : Int) : ℚ) / ((2 * den : Nat) : ℚ) := by
    push_cast
    field_simp
    ring
  rw [hrw, Rat.floor_intCast_div_natCast]
  unfold jsRound
  push_cast
  ring_nf

theorem jsRound_nonneg (num : Int) (den : Nat) (h : 0 ≤ num) : 0 ≤ jsRound num den := by
  unfold jsRound
  apply Int.ediv_nonneg <;> omega

theorem jsRound_le (num : Int) (den : Nat) (k : Int) (hden : 0 < den) (h : num ≤ k * den) :
    jsRound num den ≤ k := by
  rw [jsRound_eq_floor num den hden]
  have hd : (0 : ℚ) < (den : ℚ) := by exact_mod_cast hden
  have h1 : (num : ℚ) / (den : ℚ) ≤ (k : ℚ) := by
    rw [div_le_iff₀ hd]
    exact_mod_cast h
  have h3 : Int.floor ((num : ℚ) / (den : ℚ) + 1/2) < k + 1 := by
    apply Int.floor_lt.2
    push_cast
    linarith
  omega

theorem jsRound_den_zero (num : Int) : jsRound num 0 = 0 := by
  simp [jsRound]

/-! ### Facts about sumScores -/

theorem sumScores_eq_sum (l : List UserProgress) :
    sumScores l = (l.map (fun p => p.score)).sum := by
  suffices h : ∀ a : Int, l.foldl (fun sum p => sum + p.score) a
      = a + (l.map (fun p => p.score)).sum by
    simpa [sumScores] using h 0
  induction l with
  | nil => simp
  | cons x xs ih =>
      intro a
      simp only [List.foldl_cons, List.map_cons, List.sum_cons, ih]
      ring

theorem sumScores_nonneg (l : List UserProgress) (h : ∀ p ∈ l, 0 ≤ p.score) :
    0 ≤ sumScores l := by
  rw [sumScores_eq_sum]
  induction l with
  | nil => simp
  | cons x xs ih =>
      simp only [List.map_cons, List.sum_cons]
      have hx := h x (by simp)
      have hxs := ih (fun p hp => h p (by simp [hp]))
      linarith

theorem sumScores_le (l : List UserProgress) (h : ∀ p ∈ l, p.score ≤ 100) :
    sumScores l ≤ 100 * l.length := by
  rw [sumScores_eq_sum]
  induction l with
  | nil => simp
  | cons x xs ih =>
      simp only [List.map_cons, List.sum_cons, List.length_cons]
      have hx := h x (by simp)
      have hxs := ih (fun p hp => h p (by simp [hp]))
      push_cast
      push_cast at hxs
      linarith

/-! ### List helper lemmas -/

theorem find?_map_congr {α : Type} (p : α → Bool) (f : α → α) (l : List α)
    (h : ∀ a, p (f a) = p a) :
    (l.map f).find? p = (l.find? p).map f := by
  have hpf : (p ∘ f) = p := funext fun a => h a
  rw [List.find?_map, hpf]

theorem countP_map_congr {α : Type} (p : α → Bool) (f : α → α) (l : List α)
    (h : ∀ a, p (f a) = p a) :
    (l.map f).countP p = l.countP p := by
  have hpf : (p ∘ f) = p := funext fun a => h a
  rw [List.countP_map, hpf]

theorem map_eq_self {α : Type} (l : List α) (f : α → α) (h : ∀ a ∈ l, f a = a) :
    l.map f = l := by
  induction l with
  | nil => rfl
  | cons x xs ih => simp [h x (by simp), ih (fun a ha => h a (by simp [ha]))]

/-- Updating the user_progress table by the filters `eq(id, ep.id).eq(user_id, uid)`
when ep was found by the (user, activity) lookup and row ids are unique: the
table splits around ep and exactly the row ep is rewritten. -/
theorem update_map_decomp (l : List UserProgress)
    (hnd : (l.map (fun p => p.id)).Nodup) (uid aid : Nat) (ep newRow : UserProgress)
    (hep : l.find? (fun p => p.user_id == uid && p.activity_id == aid) = some ep) :
    ∃ as bs, l = as ++ ep :: bs ∧
      (∀ a ∈ as, (a.user_id == uid && a.activity_id == aid) = false) ∧
      l.map (fun r => if r.id == ep.id && r.user_id == uid then { newRow with id := r.id } else r)
        = as ++ { newRow with id := ep.id } :: bs := by
  obtain ⟨hpred, as, bs, hsplit, hall⟩ := List.find?_eq_some.1 hep
  have huid : (ep.user_id == uid) = true := by
    have := hpred
    simp only [Bool.and_eq_true] at this
    exact this.1
  refine ⟨as, bs, hsplit, ?_, ?_⟩
  · intro a ha
    have := hall a ha
    rw [Bool.not_eq_true'] at this
    exact this
  · subst hsplit
    rw [List.map_append, List.map_cons, List.nodup_append] at hnd
    obtain ⟨hndas, hndcons, hdisj⟩ := hnd
    rw [List.nodup_cons] at hndcons
    obtain ⟨hepbs, hndbs⟩ := hndcons
    have hasne : ∀ a ∈ as, a.id ≠ ep.id := by
      intro a ha hae
      exact hdisj (List.mem_map_of_mem _ ha) (by simp [hae])
    have hbsne : ∀ b ∈ bs, b.id ≠ ep.id := by
      intro b hb hbe
      exact hepbs (by
        rw [← hbe]
        exact List.mem_map_of_mem _ hb)
    rw [List.map_append, List.map_cons]
    have has : as.map (fun r =>
        if r.id == ep.id && r.user_id == uid then { newRow with id := r.id } else r) = as := by
      apply map_eq_self
      intro a ha
      have : (a.id == ep.id) = false := by simp [hasne a ha]
      simp [this]
    have hbs : bs.map (fun r =>
        if r.id == ep.id && r.user_id == uid then { newRow with id := r.id } else r) = bs := by
      apply map_eq_self
      intro b hb
      have : (b.id == ep.id) = false := by simp [hbsne b hb]
      simp [this]
    rw [has, hbs]
    simp [huid]

/-! ### The auto-enrollment step -/

theorem autoEnroll_enrolled (uid cid : Nat) (db : DB) (uc : UserCourse)
    (h : enrollmentFor db uid cid = some uc) : autoEnroll uid cid db = (db, []) := by
  unfold autoEnroll
  rw [h]

theorem autoEnroll_not_enrolled (uid cid : Nat) (db : DB)
    (h : enrollmentFor db uid cid = none) :
    autoEnroll uid cid db =
      ({ db with
          user_courses := db.user_courses ++
            [{ id := db.nextId, user_id := uid, course_id := cid, progress := 0, score := 0 }],
          courses := db.courses.map (fun c =>
            if c.id == cid then
              { c with total_enrollment :=
                  (match db.courses.find? (fun c2 => c2.id == cid) with
                   | some c2 => c2.total_enrollment
                   | none => 0) + 1 }
            else c),
          nextId := db.nextId + 1 },
       [{ table := "courses", filters := [("id", cid)] }]) := by
  unfold autoEnroll
  rw [h]

theorem autoEnroll_activities (uid cid : Nat) (db : DB) :
    (autoEnroll uid cid db).1.activities = db.activities := by
  unfold autoEnroll
  cases h : enrollmentFor db uid cid <;> rfl

theorem autoEnroll_user_progress (uid cid : Nat) (db : DB) :
    (autoEnroll uid cid db).1.user_progress = db.user_progress := by
  unfold autoEnroll
  cases h : enrollmentFor db uid cid <;> rfl

theorem autoEnroll_nextId_le (uid cid : Nat) (db : DB) :
    db.nextId ≤ (autoEnroll uid cid db).1.nextId := by
  unfold autoEnroll
  cases h : enrollmentFor db uid cid
  · exact Nat.le_succ _
  · exact Nat.le_refl _

theorem progressFor_autoEnroll (uid cid u2 aid : Nat) (db : DB) :
    progressFor (autoEnroll uid cid db).1 u2 aid = progressFor db u2 aid := by
  unfold progressFor
  rw [autoEnroll_user_progress]

/-! ### The Course Aggregator -/

theorem updateCourseProgress_no_published (uid cid : Nat) (db : DB)
    (h : publishedActivities db cid = []) :
    updateCourseProgress uid cid db = (db, []) := by
  unfold updateCourseProgress
  dsimp only
  rw [h]
  rfl

theorem updateCourseProgress_user_progress (uid cid : Nat) (db : DB) :
    (updateCourseProgress uid cid db).1.user_progress = db.user_progress := by
  unfold updateCourseProgress
  dsimp only
  split
  · rfl
  · split <;> rfl

theorem updateCourseProgress_activities (uid cid : Nat) (db : DB) :
    (updateCourseProgress uid cid db).1.activities = db.activities := by
  unfold updateCourseProgress
  dsimp only
  split
  · rfl
  · split <;> rfl

theorem updateCourseProgress_courses (uid cid : Nat) (db : DB) :
    (updateCourseProgress uid cid db).1.courses = db.courses := by
  unfold updateCourseProgress
  dsimp only
  split
  · rfl
  · split <;> rfl

theorem updateCourseProgress_enrolled (uid cid : Nat) (db : DB)
    (hpub : publishedActivities db cid ≠ []) (uc : UserCourse)
    (henr : enrollmentFor db uid cid = some uc) :
    updateCourseProgress uid cid db =
      ({ db with
          user_courses := db.user_courses.map (fun r =>
            if r.id == uc.id && r.user_id == uid then
              { r with progress := aggProgress db uid cid, score := aggScore db uid cid }
            else r) },
       [{ table := "user_courses", filters := [("id", uc.id), ("user_id", uid)] }]) := by
  cases hp : publishedActivities db cid with
  | nil => exact absurd hp hpub
  | cons x xs =>
      unfold updateCourseProgress aggProgress aggScore
      dsimp only
      rw [hp, henr]
      rfl

theorem updateCourseProgress_not_enrolled (uid cid : Nat) (db : DB)
    (hpub : publishedActivities db cid ≠ [])
    (henr : enrollmentFor db uid cid = none) :
    updateCourseProgress uid cid db =
      ({ db with
          user_courses := db.user_courses ++
            [{ id := db.nextId, user_id := uid, course_id := cid,
               progress := aggProgress db uid cid, score := aggScore db uid cid }],
          nextId := db.nextId + 1 },
       []) := by
  cases hp : publishedActivities db cid with
  | nil => exact absurd hp hpub
  | cons x xs =>
      unfold updateCourseProgress aggProgress aggScore
      dsimp only
      rw [hp, henr]
      rfl

/-- Whenever the course has a published activity, the aggregator leaves
behind an enrollment row for (user, course) carrying exactly the computed
percentage and average. -/
theorem enrollmentFor_updateCourseProgress (uid cid : Nat) (db : DB)
    (hpub : publishedActivities db cid ≠ []) :
    ∃ uc0, enrollmentFor (updateCourseProgress uid cid db).1 uid cid = some uc0 ∧
      uc0.progress = aggProgress db uid cid ∧ uc0.score = aggScore db uid cid ∧
      uc0.user_id = uid ∧ uc0.course_id = cid := by
  cases henr : enrollmentFor db uid cid with
  | some uc =>
      have henr2 := henr
      unfold enrollmentFor at henr2
      have hpred := List.find?_some henr2
      simp only [Bool.and_eq_true, beq_iff_eq] at hpred
      rw [updateCourseProgress_enrolled uid cid db hpub uc henr]
      unfold enrollmentFor at henr ⊢
      dsimp only
      rw [find?_map_congr _ _ _ (fun r => by
        by_cases hc : (r.id == uc.id && r.user_id == uid) = true
        · simp [hc]
        · rw [Bool.not_eq_true] at hc
          simp [hc])]
      rw [henr]
      refine ⟨_, rfl, ?_, ?_, ?_, ?_⟩ <;> simp [hpred.1, hpred.2]
  | none =>
      rw [updateCourseProgress_not_enrolled uid cid db hpub henr]
      unfold enrollmentFor at henr ⊢
      dsimp only
      rw [List.find?_append, henr]
      simp

/-! ### The save operation, branch by branch -/

theorem save_none_eq (aid : Nat) (s : Int) (cb : Bool) (ans : Option String)
    (ts : Option Nat) (db : DB) :
    saveActivityProgress none aid s cb ans ts db
      = (Except.error SaveError.Unauthenticated, db, []) := rfl

theorem save_not_found_eq (uid aid : Nat) (s : Int) (cb : Bool) (ans : Option String)
    (ts : Option Nat) (db : DB)
    (hact : db.activities.find? (fun a => a.id == aid) = none) :
    saveActivityProgress (some uid) aid s cb ans ts db
      = (Except.error SaveError.NotFound, db, []) := by
  unfold saveActivityProgress
  dsimp only
  rw [hact]

theorem save_insert_eq (uid aid : Nat) (s : Int) (cb : Bool) (ans : Option String)
    (ts : Option Nat) (db : DB) (act : Activity)
    (hact : db.activities.find? (fun a => a.id == aid) = some act)
    (hep : progressFor db uid aid = none) :
    saveActivityProgress (some uid) aid s cb ans ts db
      = saveInsertOutcome uid aid s cb ans ts act.course_id db := by
  unfold saveActivityProgress saveInsertOutcome
  dsimp only
  rw [hact]
  dsimp only
  rw [progressFor_autoEnroll, hep]
  rfl

theorem save_update_eq (uid aid : Nat) (s : Int) (cb : Bool) (ans : Option String)
    (ts : Option Nat) (db : DB) (act : Activity) (ep : UserProgress)
    (hact : db.activities.find? (fun a => a.id == aid) = some act)
    (hep : progressFor db uid aid = some ep) :
    saveActivityProgress (some uid) aid s cb ans ts db
      = saveUpdateOutcome uid aid s cb ans ts act.course_id ep db := by
  unfold saveActivityProgress saveUpdateOutcome
  dsimp only
  rw [hact]
  dsimp only
  rw [progressFor_autoEnroll, hep]
  rfl

/-! ### Well-formedness preservation -/

theorem wf_map_user_courses (db : DB) (f : UserCourse → UserCourse)
    (hid : ∀ r, (f r).id = r.id) (hwf : db.WF) :
    ({ db with user_courses := db.user_courses.map f } : DB).WF := by
  obtain ⟨h1, h2, h3, h4, h5⟩ := hwf
  refine ⟨h1, ?_, h3, h4, ?_⟩
  · dsimp only
    rw [List.map_map]
    have hcomp : ((fun uc : UserCourse => uc.id) ∘ f) = fun uc => uc.id :=
      funext fun r => hid r
    rw [hcomp]
    exact h2
  · intro uc huc
    dsimp only at huc
    obtain ⟨r, hr, rfl⟩ := List.mem_map.1 huc
    rw [hid]
    exact h5 r hr

theorem wf_map_courses (db : DB) (f : Course → Course)
    (hid : ∀ c, (f c).id = c.id) (hwf : db.WF) :
    ({ db with courses := db.courses.map f } : DB).WF := by
  obtain ⟨h1, h2, h3, h4, h5⟩ := hwf
  refine ⟨h1, h2, ?_, h4, h5⟩
  dsimp only
  rw [List.map_map]
  have hcomp : ((fun c : Course => c.id) ∘ f) = fun c => c.id :=
    funext fun c => hid c
  rw [hcomp]
  exact h3

theorem wf_map_user_progress (db : DB) (f : UserProgress → UserProgress)
    (hid : ∀ p, (f p).id = p.id) (hwf : db.WF) :
    ({ db with user_progress := db.user_progress.map f } : DB).WF := by
  obtain ⟨h1, h2, h3, h4, h5⟩ := hwf
  refine ⟨?_, h2, h3, ?_, h5⟩
  · dsimp only
    rw [List.map_map]
    have hcomp : ((fun p : UserProgress => p.id) ∘ f) = fun p => p.id :=
      funext fun p => hid p
    rw [hcomp]
    exact h1
  · intro p hp
    dsimp only at hp
    obtain ⟨r, hr, rfl⟩ := List.mem_map.1 hp
    rw [hid]
    exact h4 r hr

theorem wf_append_user_courses (db : DB) (uc : UserCourse)
    (hucid : uc.id = db.nextId) (hwf : db.WF) :
    ({ db with
        user_courses := db.user_courses ++ [uc],
        nextId := db.nextId + 1 } : DB).WF := by
  obtain ⟨h1, h2, h3, h4, h5⟩ := hwf
  refine ⟨h1, ?_, h3, ?_, ?_⟩
  · dsimp only
    rw [List.map_append, List.nodup_append]
    refine ⟨h2, List.nodup_singleton _, ?_⟩
    intro x hx hx2
    obtain ⟨r, hr, rfl⟩ := List.mem_map.1 hx
    simp only [List.map_cons, List.map_nil, List.mem_singleton] at hx2
    have := h5 r hr
    omega
  · intro p hp
    exact Nat.lt_succ_of_lt (h4 p hp)
  · intro r hr
    dsimp only at hr
    rcases List.mem_append.1 hr with h | h
    · exact Nat.lt_succ_of_lt (h5 r h)
    · simp only [List.mem_singleton] at h
      subst h
      dsimp only
      omega

theorem wf_append_user_progress (db : DB) (p : UserProgress)
    (hpid : p.id = db.nextId) (hwf : db.WF) :
    ({ db with
        user_progress := db.user_progress ++ [p],
        nextId := db.nextId + 1 } : DB).WF := by
  obtain ⟨h1, h2, h3, h4, h5⟩ := hwf
  refine ⟨?_, h2, h3, ?_, ?_⟩
  · dsimp only
    rw [List.map_append, List.nodup_append]
    refine ⟨h1, List.nodup_singleton _, ?_⟩
    intro x hx hx2
    obtain ⟨r, hr, rfl⟩ := List.mem_map.1 hx
    simp only [List.map_cons, List.map_nil, List.mem_singleton] at hx2
    have := h4 r hr
    omega
  · intro q hq
    dsimp only at hq
    rcases List.mem_append.1 hq with h | h
    · exact Nat.lt_succ_of_lt (h4 q h)
    · simp only [List.mem_singleton] at h
      subst h
      dsimp only
      omega
  · intro r hr
    exact Nat.lt_succ_of_lt (h5 r hr)

theorem wf_autoEnroll (uid cid : Nat) (db : DB) (hwf : db.WF) :
    (autoEnroll uid cid db).1.WF := by
  cases henr : enrollmentFor db uid cid with
  | some uc =>
      rw [autoEnroll_enrolled uid cid db uc henr]
      exact hwf
  | none =>
      rw [autoEnroll_not_enrolled uid cid db henr]
      have h1 := wf_append_user_courses db
        { id := db.nextId, user_id := uid, course_id := cid, progress := 0, score := 0 }
        rfl hwf
      have h2 := wf_map_courses _
        (fun c => if c.id == cid then
          { c with total_enrollment :=
              (match db.courses.find? (fun c2 => c2.id == cid) with
               | some c2 => c2.total_enrollment
               | none => 0) + 1 }
          else c)
        (fun c => by
          by_cases hc : (c.id == cid) = true
          · simp [hc]
          · rw [Bool.not_eq_true] at hc
            simp [hc])
        h1
      exact h2

theorem wf_updateCourseProgress (uid cid : Nat) (db : DB) (hwf : db.WF) :
    (updateCourseProgress uid cid db).1.WF := by
  by_cases hpub : publishedActivities db cid = []
  · rw [updateCourseProgress_no_published uid cid db hpub]
    exact hwf
  · cases henr : enrollmentFor db uid cid with
    | some uc =>
        rw [updateCourseProgress_enrolled uid cid db hpub uc henr]
        exact wf_map_user_courses db _
          (fun r => by
            by_cases hc : (r.id == uc.id && r.user_id == uid) = true
            · simp [hc]
            · rw [Bool.not_eq_true] at hc
              simp [hc])
          hwf
    | none =>
        rw [updateCourseProgress_not_enrolled uid cid db hpub henr]
        exact wf_append_user_courses db _ rfl hwf

theorem wf_save (u : Option Nat) (aid : Nat) (s : Int) (cb : Bool)
    (ans : Option String) (ts : Option Nat) (db : DB) (hwf : db.WF) :
    ((saveActivityProgress u aid s cb ans ts db).2.1).WF := by
  cases u with
  | none => exact hwf
  | some uid =>
      cases hact : db.activities.find? (fun a => a.id == aid) with
      | none =>
          rw [save_not_found_eq uid aid s cb ans ts db hact]
          exact hwf
      | some act =>
          cases hep : progressFor db uid aid with
          | none =>
              rw [save_insert_eq uid aid s cb ans ts db act hact hep]
              unfold saveInsertOutcome
              dsimp only
              exact wf_updateCourseProgress _ _ _
                (wf_append_user_progress _ _ rfl (wf_autoEnroll _ _ _ hwf))
          | some ep =>
              rw [save_update_eq uid aid s cb ans ts db act ep hact hep]
              unfold saveUpdateOutcome
              dsimp only
              exact wf_updateCourseProgress _ _ _
                (wf_map_user_progress _ _ (fun r => by
                    by_cases hc : (r.id == ep.id && r.user_id == uid) = true
                    · simp [hc]
                    · rw [Bool.not_eq_true] at hc
                      simp [hc])
                  (wf_autoEnroll _ _ _ hwf))

/-! ### Row counting and row lookup after writes -/

theorem enrollmentFor_eq_none_iff (db : DB) (uid cid : Nat) :
    enrollmentFor db uid cid = none ↔ enrollCountFor db uid cid = 0 := by
  unfold enrollmentFor enrollCountFor
  rw [List.find?_eq_none, List.countP_eq_zero]

theorem progressFor_eq_none_iff (db : DB) (uid aid : Nat) :
    progressFor db uid aid = none ↔ progressCountFor db uid aid = 0 := by
  unfold progressFor progressCountFor
  rw [List.find?_eq_none, List.countP_eq_zero]

theorem enrollCountFor_autoEnroll_none (uid cid : Nat) (db : DB)
    (henr : enrollmentFor db uid cid = none) :
    enrollCountFor (autoEnroll uid cid db).1 uid cid = enrollCountFor db uid cid + 1 := by
  rw [autoEnroll_not_enrolled uid cid db henr]
  unfold enrollCountFor
  dsimp only
  rw [List.countP_append]
  simp [List.countP_cons]

theorem enrollCountFor_autoEnroll_some (uid cid u2 c2 : Nat) (db : DB) (uc : UserCourse)
    (henr : enrollmentFor db uid cid = some uc) :
    enrollCountFor (autoEnroll uid cid db).1 u2 c2 = enrollCountFor db u2 c2 := by
  rw [autoEnroll_enrolled uid cid db uc henr]

theorem enrollCountFor_agg (uid cid u2 c2 : Nat) (db : DB)
    (hsome : enrollmentFor db uid cid ≠ none) :
    enrollCountFor (updateCourseProgress uid cid db).1 u2 c2 = enrollCountFor db u2 c2 := by
  by_cases hpub : publishedActivities db cid = []
  · rw [updateCourseProgress_no_published uid cid db hpub]
  · cases henr : enrollmentFor db uid cid with
    | none => exact absurd henr hsome
    | some uc =>
        rw [updateCourseProgress_enrolled uid cid db hpub uc henr]
        unfold enrollCountFor
        dsimp only
        exact countP_map_congr _ _ _ (fun r => by
          by_cases hc : (r.id == uc.id && r.user_id == uid) = true
          · simp [hc]
          · rw [Bool.not_eq_true] at hc
            simp [hc])

theorem progressFor_update_map (l : List UserProgress)
    (hnd : (l.map (fun p => p.id)).Nodup) (uid aid : Nat) (ep newRow : UserProgress)
    (hep : l.find? (fun p => p.user_id == uid && p.activity_id == aid) = some ep)
    (hpredNew : (newRow.user_id == uid && newRow.activity_id == aid) = true) :
    (l.map (fun r => if r.id == ep.id && r.user_id == uid then { newRow with id := r.id } else r)).find?
        (fun p => p.user_id == uid && p.activity_id == aid)
      = some { newRow with id := ep.id } := by
  obtain ⟨as, bs, hsplit, has, hmap⟩ := update_map_decomp l hnd uid aid ep newRow hep
  rw [hmap, List.find?_append]
  have hnone : as.find? (fun p => p.user_id == uid && p.activity_id == aid) = none :=
    List.find?_eq_none.2 (fun a ha => by
      rw [has a ha]
      exact Bool.false_ne_true)
  rw [hnone]
  have h2 := hpredNew
  rw [Bool.and_eq_true] at h2
  simp [List.find?_cons, h2.1, h2.2]

theorem progressCountFor_update_map (l : List UserProgress)
    (hnd : (l.map (fun p => p.id)).Nodup) (uid aid : Nat) (ep newRow : UserProgress)
    (hep : l.find? (fun p => p.user_id == uid && p.activity_id == aid) = some ep)
    (hpredNew : (newRow.user_id == uid && newRow.activity_id == aid) = true) :
    (l.map (fun r => if r.id == ep.id && r.user_id == uid then { newRow with id := r.id } else r)).countP
        (fun p => p.user_id == uid && p.activity_id == aid)
      = l.countP (fun p => p.user_id == uid && p.activity_id == aid) := by
  obtain ⟨as, bs, hsplit, has, hmap⟩ := update_map_decomp l hnd uid aid ep newRow hep
  have hpredEp := List.find?_some hep
  simp only [Bool.and_eq_true] at hpredEp
  have h2 := hpredNew
  rw [Bool.and_eq_true] at h2
  rw [hmap, hsplit, List.countP_append, List.countP_append, List.countP_cons, List.countP_cons]
  simp [hpredEp.1, hpredEp.2, h2.1, h2.2]

/-! ### jsOr case facts -/

theorem jsOr_none (b : Nat) : jsOr none b = b := rfl

theorem jsOr_some_zero (b : Nat) : jsOr (some 0) b = b := by
  simp [jsOr]

theorem jsOr_some_ne (t b : Nat) (h : t ≠ 0) : jsOr (some t) b = t := by
  simp [jsOr, h]

theorem jsOr_some_self (t : Nat) : jsOr (some t) 0 = t := by
  by_cases h : t = 0
  · subst h
    rfl
  · simp [jsOr, h]

/-! ### The saved progress row, branch by branch -/

theorem progressFor_save_insert (uid aid : Nat) (s : Int) (cb : Bool) (ans : Option String)
    (ts : Option Nat) (db : DB) (act : Activity)
    (hact : db.activities.find? (fun a => a.id == aid) = some act)
    (hep : progressFor db uid aid = none) :
    progressFor (saveActivityProgress (some uid) aid s cb ans ts db).2.1 uid aid
      = some { id := (autoEnroll uid act.course_id db).1.nextId, user_id := uid,
               activity_id := aid, course_id := act.course_id, score := s, completed := cb,
               answers := ans, time_spent := jsOr ts 0 } := by
  rw [save_insert_eq uid aid s cb ans ts db act hact hep]
  unfold saveInsertOutcome
  dsimp only
  unfold progressFor
  rw [updateCourseProgress_user_progress]
  dsimp only
  rw [List.find?_append]
  have h0 : (autoEnroll uid act.course_id db).1.user_progress.find?
      (fun p => p.user_id == uid && p.activity_id == aid) = none := by
    have hpa := progressFor_autoEnroll uid act.course_id uid aid db
    unfold progressFor at hpa hep
    rw [hpa, hep]
  rw [h0]
  simp [List.find?_cons]

theorem progressFor_save_update (uid aid : Nat) (s : Int) (cb : Bool) (ans : Option String)
    (ts : Option Nat) (db : DB) (act : Activity) (ep : UserProgress)
    (hnd : (db.user_progress.map (fun p => p.id)).Nodup)
    (hact : db.activities.find? (fun a => a.id == aid) = some act)
    (hep : progressFor db uid aid = some ep) :
    progressFor (saveActivityProgress (some uid) aid s cb ans ts db).2.1 uid aid
      = some { id := ep.id, user_id := uid, activity_id := aid, course_id := act.course_id,
               score := s, completed := cb, answers := ans,
               time_spent := jsOr ts (jsOr (some ep.time_spent) 0) } := by
  rw [save_update_eq uid aid s cb ans ts db act ep hact hep]
  unfold saveUpdateOutcome
  dsimp only
  unfold progressFor
  rw [updateCourseProgress_user_progress]
  dsimp only
  rw [autoEnroll_user_progress]
  have hfind : db.user_progress.find? (fun p => p.user_id == uid && p.activity_id == aid)
      = some ep := by
    unfold progressFor at hep
    exact hep
  exact progressFor_update_map db.user_progress hnd uid aid ep
    { id := ep.id, user_id := uid, activity_id := aid, course_id := act.course_id,
      score := s, completed := cb, answers := ans,
      time_spent := jsOr ts (jsOr (some ep.time_spent) 0) }
    hfind (by simp)

/-! ### Tables untouched by the save operation -/

theorem save_activities (u : Option Nat) (aid : Nat) (s : Int) (cb : Bool)
    (ans : Option String) (ts : Option Nat) (db : DB) :
    (saveActivityProgress u aid s cb ans ts db).2.1.activities = db.activities := by
  cases u with
  | none => rfl
  | some uid =>
      cases hact : db.activities.find? (fun a => a.id == aid) with
      | none => rw [save_not_found_eq uid aid s cb ans ts db hact]
      | some act =>
          cases hep : progressFor db uid aid with
          | none =>
              rw [save_insert_eq uid aid s cb ans ts db act hact hep]
              unfold saveInsertOutcome
              dsimp only
              rw [updateCourseProgress_activities]
              exact autoEnroll_activities uid act.course_id db
          | some ep =>
              rw [save_update_eq uid aid s cb ans ts db act ep hact hep]
              unfold saveUpdateOutcome
              dsimp only
              rw [updateCourseProgress_activities]
              exact autoEnroll_activities uid act.course_id db

/-! ### Progress-row count after one save -/

theorem progressCountFor_save (uid aid : Nat) (s : Int) (cb : Bool)
    (ans : Option String) (ts : Option Nat) (db : DB) (act : Activity)
    (hwf : db.WF)
    (hact : db.activities.find? (fun a => a.id == aid) = some act)
    (hcnt : progressCountFor db uid aid ≤ 1) :
    progressCountFor (saveActivityProgress (some uid) aid s cb ans ts db).2.1 uid aid = 1 := by
  cases hep : progressFor db uid aid with
  | none =>
      rw [save_insert_eq uid aid s cb ans ts db act hact hep]
      unfold saveInsertOutcome
      dsimp only
      unfold progressCountFor
      rw [updateCourseProgress_user_progress]
      dsimp only
      rw [autoEnroll_user_progress, List.countP_append]
      have h0 : progressCountFor db uid aid = 0 := (progressFor_eq_none_iff db uid aid).1 hep
      unfold progressCountFor at h0
      rw [h0]
      simp [List.countP_cons]
  | some ep =>
      rw [save_update_eq uid aid s cb ans ts db act ep hact hep]
      unfold saveUpdateOutcome
      dsimp only
      unfold progressCountFor
      rw [updateCourseProgress_user_progress]
      dsimp only
      rw [autoEnroll_user_progress]
      have hfind : db.user_progress.find? (fun p => p.user_id == uid && p.activity_id == aid)
          = some ep := by
        unfold progressFor at hep
        exact hep
      rw [progressCountFor_update_map db.user_progress hwf.1 uid aid ep
        { id := ep.id, user_id := uid, activity_id := aid, course_id := act.course_id,
          score := s, completed := cb, answers := ans,
          time_spent := jsOr ts (jsOr (some ep.time_spent) 0) }
        hfind (by simp)]
      have hmem := List.mem_of_find?_eq_some hfind
      have hpred := List.find?_some hfind
      have hpos : 0 < db.user_progress.countP
          (fun p => p.user_id == uid && p.activity_id == aid) :=
        List.countP_pos_iff.2 ⟨ep, hmem, hpred⟩
      unfold progressCountFor at hcnt
      omega

theorem runSaves_cons (uid aid : Nat) (i : Int × Bool × Option String × Option Nat)
    (rest : List (Int × Bool × Option String × Option Nat)) (db : DB) :
    runSaves uid aid (i :: rest) db
      = runSaves uid aid rest
          (saveActivityProgress (some uid) aid i.1 i.2.1 i.2.2.1 i.2.2.2 db).2.1 := rfl

/-! ### The course counter after auto-enrollment -/

theorem coursesFind_autoEnroll_none (uid cid : Nat) (db : DB) (course : Course)
    (henr : enrollmentFor db uid cid = none)
    (hcourse : db.courses.find? (fun c => c.id == cid) = some course) :
    (autoEnroll uid cid db).1.courses.find? (fun c => c.id == cid)
      = some { course with total_enrollment := course.total_enrollment + 1 } := by
  rw [autoEnroll_not_enrolled uid cid db henr]
  dsimp only
  rw [find?_map_congr _ _ _ (fun c => by
    by_cases hc : (c.id == cid) = true
    · simp [hc]
    · rw [Bool.not_eq_true] at hc
      simp [hc])]
  rw [hcourse]
  have hcid := List.find?_some hcourse
  have hceq : course.id = cid := by simpa using hcid
  simp [hceq]

/-! ### The shape of the update-statement traces -/

theorem autoEnroll_trace_tables (uid cid : Nat) (db : DB) :
    ∀ st ∈ (autoEnroll uid cid db).2, st.table = "courses" := by
  cases henr : enrollmentFor db uid cid with
  | some uc =>
      rw [autoEnroll_enrolled uid cid db uc henr]
      intro st hst
      cases hst
  | none =>
      rw [autoEnroll_not_enrolled uid cid db henr]
      intro st hst
      simp only [List.mem_singleton] at hst
      subst hst
      rfl

theorem agg_trace_scoped (uid cid : Nat) (db : DB) :
    ∀ st ∈ (updateCourseProgress uid cid db).2, st.hasUserEq uid = true := by
  by_cases hpub : publishedActivities db cid = []
  · rw [updateCourseProgress_no_published uid cid db hpub]
    intro st hst
    cases hst
  · cases henr : enrollmentFor db uid cid with
    | some uc =>
        rw [updateCourseProgress_enrolled uid cid db hpub uc henr]
        intro st hst
        simp only [List.mem_singleton] at hst
        subst hst
        simp [UpdateStmt.hasUserEq]
    | none =>
        rw [updateCourseProgress_not_enrolled uid cid db hpub henr]
        intro st hst
        cases hst

theorem enrollCount_agg_one (uid cid : Nat) (dbx : DB)
    (hcnt : enrollCountFor dbx uid cid = 1) :
    enrollCountFor (updateCourseProgress uid cid dbx).1 uid cid = 1 := by
  have hsome : enrollmentFor dbx uid cid ≠ none := by
    intro hnone
    have h0 := (enrollmentFor_eq_none_iff dbx uid cid).1 hnone
    omega
  rw [enrollCountFor_agg uid cid uid cid dbx hsome]
  exact hcnt

/-! ### The claims -/

/-- C1 counterexample: in dbDraftCompleted the user has a completed progress
row for a draft activity. The claim's count of completed, published
activities is 1 of 1 published, predicting round(100 × 1/1) = 100, but the
aggregator (which never consults the activity's published status) writes
progress 200. -/
theorem claim1_counterexample :
    (enrollmentFor (updateCourseProgress 7 1 dbDraftCompleted).1 7 1).map (fun uc => uc.progress)
        = some 200 ∧
      specCompletedPublishedCount dbDraftCompleted 7 1 = 1 ∧
      (publishedActivities dbDraftCompleted 1).length = 1 ∧
      jsRound (1 * 100) 1 = 100 ∧ (200 : Int) ≠ 100 := by decide

/-- C1 (amended): when the aggregator runs and the course has at least one
published activity, the enrollment row's progress is set to
round(100 × completedCount / totalPublishedActivities) and its score to
round(sum of scores over completed rows / completedCount) when
completedCount > 0 (else 0), where completedCount counts all the user's
completed progress rows of that course, regardless of whether the row's
activity is published. -/
theorem claim1_aggregation_formula (uid cid : Nat) (db : DB)
    (hpub : publishedActivities db cid ≠ []) :
    ∃ uc0, enrollmentFor (updateCourseProgress uid cid db).1 uid cid = some uc0 ∧
      uc0.progress = jsRound ((completedRows db uid cid).length * 100)
          (publishedActivities db cid).length ∧
      uc0.score = (if (completedRows db uid cid).length > 0 then
          jsRound (sumScores (completedRows db uid cid)) (completedRows db uid cid).length
        else 0) := by
  obtain ⟨uc0, h1, h2, h3, _, _⟩ := enrollmentFor_updateCourseProgress uid cid db hpub
  exact ⟨uc0, h1, h2, h3⟩

theorem claim1_aggregation_formula_witness :
    ∃ uc0, enrollmentFor (updateCourseProgress 7 1 dbBothDone).1 7 1 = some uc0 ∧
      uc0.progress = jsRound ((completedRows dbBothDone 7 1).length * 100)
          (publishedActivities dbBothDone 1).length ∧
      uc0.score = (if (completedRows dbBothDone 7 1).length > 0 then
          jsRound (sumScores (completedRows dbBothDone 7 1)) (completedRows dbBothDone 7 1).length
        else 0) :=
  claim1_aggregation_formula 7 1 dbBothDone (by decide)

/-- C2 counterexample: with a prior stored time-spent of 50, a save that
explicitly supplies timeSpent = 0 stores 50, not the supplied 0: a supplied
falsy value is discarded by the `timeSpent || existing?.time_spent || 0`
fallback, so the stored value does not equal the caller-supplied one. -/
theorem claim2_counterexample :
    (progressFor (saveActivityProgress (some 7) 10 80 true none (some 0) dbPriorTime).2.1 7 10).map
        (fun p => p.time_spent) = some 50 ∧ (50 : Nat) ≠ 0 := by decide

/-- C2 (amended): the stored time-spent equals the caller-supplied value
whenever one is supplied and nonzero; when timeSpent is omitted or supplied
as 0, the stored value equals the prior row's stored value when a prior row
exists (never reset to 0), and 0 when no prior row exists. -/
theorem claim2_time_spent_fallback (uid aid : Nat) (s : Int) (cb : Bool)
    (ans : Option String) (ts : Option Nat) (db : DB) (act : Activity)
    (hnd : (db.user_progress.map (fun p => p.id)).Nodup)
    (hact : db.activities.find? (fun a => a.id == aid) = some act) :
    ∃ p, progressFor (saveActivityProgress (some uid) aid s cb ans ts db).2.1 uid aid = some p ∧
      (∀ t, ts = some t → t ≠ 0 → p.time_spent = t) ∧
      ((ts = none ∨ ts = some 0) →
        ((∀ q, progressFor db uid aid = some q → p.time_spent = q.time_spent) ∧
         (progressFor db uid aid = none → p.time_spent = 0))) := by
  cases hep : progressFor db uid aid with
  | none =>
      refine ⟨_, progressFor_save_insert uid aid s cb ans ts db act hact hep, ?_, ?_⟩
      · intro t ht hne
        subst ht
        exact jsOr_some_ne t 0 hne
      · intro hts
        constructor
        · intro q hq
          cases hq
        · intro _
          rcases hts with rfl | rfl
          · rfl
          · exact jsOr_some_zero 0
  | some ep =>
      refine ⟨_, progressFor_save_update uid aid s cb ans ts db act ep hnd hact hep, ?_, ?_⟩
      · intro t ht hne
        subst ht
        exact jsOr_some_ne t _ hne
      · intro hts
        constructor
        · intro q hq
          injection hq with hqe
          subst hqe
          rcases hts with rfl | rfl
          · exact jsOr_some_self _
          · rw [jsOr_some_zero]
            exact jsOr_some_self _
        · intro hq
          cases hq

theorem claim2_time_spent_fallback_witness :
    ∃ p, progressFor (saveActivityProgress (some 7) 10 80 true none (some 25) dbPriorTime).2.1 7 10
        = some p ∧
      (∀ t, (some 25 : Option Nat) = some t → t ≠ 0 → p.time_spent = t) ∧
      (((some 25 : Option Nat) = none ∨ (some 25 : Option Nat) = some 0) →
        ((∀ q, progressFor dbPriorTime 7 10 = some q → p.time_spent = q.time_spent) ∧
         (progressFor dbPriorTime 7 10 = none → p.time_spent = 0))) :=
  claim2_time_spent_fallback 7 10 80 true none (some 25) dbPriorTime
    { id := 10, course_id := 1, status := "published" } (by decide) (by decide)

/-- C3: starting from a store whose (user, activity) pair has at most one
progress row, any nonempty sequence of successful saveActivityProgress calls
for that pair leaves exactly one progress row for it: a save over an
existing row updates it in place (matched by its id and the user id), never
inserting a second row. -/
theorem runSaves_count_invariant (uid aid : Nat) (act : Activity)
    (l : List (Int × Bool × Option String × Option Nat)) :
    ∀ d : DB, d.WF → d.activities.find? (fun a => a.id == aid) = some act →
      progressCountFor d uid aid = 1 →
      progressCountFor (runSaves uid aid l d) uid aid = 1 := by
  induction l with
  | nil =>
      intro d _ _ h
      exact h
  | cons j js ih =>
      intro d hwfd hactd h1
      rw [runSaves_cons]
      exact ih _ (wf_save (some uid) aid j.1 j.2.1 j.2.2.1 j.2.2.2 d hwfd)
        (by rw [save_activities]; exact hactd)
        (progressCountFor_save uid aid j.1 j.2.1 j.2.2.1 j.2.2.2 d act hwfd hactd (by omega))

theorem claim3_progress_row_unique (uid aid : Nat)
    (inputs : List (Int × Bool × Option String × Option Nat)) (db : DB) (act : Activity)
    (hwf : db.WF) (hact : db.activities.find? (fun a => a.id == aid) = some act)
    (hcnt : progressCountFor db uid aid ≤ 1) (hne : inputs ≠ []) :
    progressCountFor (runSaves uid aid inputs db) uid aid = 1 := by
  cases inputs with
  | nil => exact absurd rfl hne
  | cons i rest =>
      rw [runSaves_cons]
      exact runSaves_count_invariant uid aid act rest _
        (wf_save (some uid) aid i.1 i.2.1 i.2.2.1 i.2.2.2 db hwf)
        (by rw [save_activities]; exact hact)
        (progressCountFor_save uid aid i.1 i.2.1 i.2.2.1 i.2.2.2 db act hwf hact hcnt)

theorem claim3_progress_row_unique_witness :
    progressCountFor (runSaves 7 10 [(80, true, none, none), (90, true, none, some 5)] dbFresh)
        7 10 = 1 :=
  claim3_progress_row_unique 7 10 [(80, true, none, none), (90, true, none, some 5)] dbFresh
    { id := 10, course_id := 1, status := "published" }
    (by unfold DB.WF; decide) (by decide) (by decide) (by decide)

/-- C4 counterexample: in dbDraftCompleted the aggregator writes an
enrollment progress of 200, outside the claimed 0..100 range. -/
theorem claim4_counterexample :
    (enrollmentFor (updateCourseProgress 7 1 dbDraftCompleted).1 7 1).map (fun uc => uc.progress)
        = some 200 ∧ ¬ ((200 : Int) ≤ 100) := by decide

/-- C4 (amended): the enrollment values written by the aggregator lie in
0..100 provided the user's completed-row count for the course does not
exceed its published-activity count and every completed row's stored score
lies in 0..100; the other enrollment write of the subsystem, the
auto-enrollment insert, always writes progress 0 and score 0. Without the
provisos the range can be exceeded (see the counterexample). -/
theorem claim4_range (uid cid : Nat) (db : DB)
    (hcnt : (completedRows db uid cid).length ≤ (publishedActivities db cid).length)
    (hscore : ∀ p ∈ completedRows db uid cid, 0 ≤ p.score ∧ p.score ≤ 100)
    (hpub : publishedActivities db cid ≠ []) :
    (∃ uc0, enrollmentFor (updateCourseProgress uid cid db).1 uid cid = some uc0 ∧
      0 ≤ uc0.progress ∧ uc0.progress ≤ 100 ∧ 0 ≤ uc0.score ∧ uc0.score ≤ 100) ∧
    (∀ (db2 : DB) (u2 c2 : Nat), enrollmentFor db2 u2 c2 = none →
      ∃ r, (autoEnroll u2 c2 db2).1.user_courses = db2.user_courses ++ [r] ∧
        r.progress = 0 ∧ r.score = 0) := by
  constructor
  · obtain ⟨uc0, h1, h2, h3, _, _⟩ := enrollmentFor_updateCourseProgress uid cid db hpub
    have hplen : 0 < (publishedActivities db cid).length := List.length_pos.2 hpub
    have hprog1 : 0 ≤ aggProgress db uid cid := by
      unfold aggProgress
      exact jsRound_nonneg _ _ (by positivity)
    have hprog2 : aggProgress db uid cid ≤ 100 := by
      unfold aggProgress
      apply jsRound_le _ _ _ hplen
      omega
    have hsc1 : 0 ≤ aggScore db uid cid := by
      unfold aggScore
      by_cases hc : (completedRows db uid cid).length > 0
      · rw [if_pos hc]
        exact jsRound_nonneg _ _ (sumScores_nonneg _ (fun p hp => (hscore p hp).1))
      · rw [if_neg hc]
    have hsc2 : aggScore db uid cid ≤ 100 := by
      unfold aggScore
      by_cases hc : (completedRows db uid cid).length > 0
      · rw [if_pos hc]
        exact jsRound_le _ _ _ hc (sumScores_le _ (fun p hp => (hscore p hp).2))
      · rw [if_neg hc]
        norm_num
    exact ⟨uc0, h1, by rw [h2]; exact hprog1, by rw [h2]; exact hprog2,
      by rw [h3]; exact hsc1, by rw [h3]; exact hsc2⟩
  · intro db2 u2 c2 hnone
    refine ⟨{ id := db2.nextId, user_id := u2, course_id := c2, progress := 0, score := 0 },
      ?_, rfl, rfl⟩
    rw [autoEnroll_not_enrolled u2 c2 db2 hnone]

theorem claim4_range_witness :
    (∃ uc0, enrollmentFor (updateCourseProgress 7 1 dbBothDone).1 7 1 = some uc0 ∧
      0 ≤ uc0.progress ∧ uc0.progress ≤ 100 ∧ 0 ≤ uc0.score ∧ uc0.score ≤ 100) ∧
    (∀ (db2 : DB) (u2 c2 : Nat), enrollmentFor db2 u2 c2 = none →
      ∃ r, (autoEnroll u2 c2 db2).1.user_courses = db2.user_courses ++ [r] ∧
        r.progress = 0 ∧ r.score = 0) :=
  claim4_range 7 1 dbBothDone (by decide) (by decide) (by decide)

/-- C5: a successful save by a user with no enrollment row in the activity's
course succeeds, leaves exactly one enrollment row for (user, course), sets
the course's total_enrollment to the value read plus exactly 1, and the
auto-enrollment step inserts exactly one row with progress 0 and score 0. -/
theorem claim5_auto_enrollment (uid aid : Nat) (s : Int) (cb : Bool)
    (ans : Option String) (ts : Option Nat) (db : DB) (act : Activity) (course : Course)
    (hact : db.activities.find? (fun a => a.id == aid) = some act)
    (henr : enrollmentFor db uid act.course_id = none)
    (hcourse : db.courses.find? (fun c => c.id == act.course_id) = some course) :
    (∃ rows, (saveActivityProgress (some uid) aid s cb ans ts db).1 = Except.ok rows) ∧
    enrollCountFor (saveActivityProgress (some uid) aid s cb ans ts db).2.1 uid act.course_id
        = 1 ∧
    ((saveActivityProgress (some uid) aid s cb ans ts db).2.1.courses.find?
        (fun c => c.id == act.course_id)).map (fun c => c.total_enrollment)
      = some (course.total_enrollment + 1) ∧
    (autoEnroll uid act.course_id db).1.user_courses
      = db.user_courses ++ [{ id := db.nextId, user_id := uid, course_id := act.course_id,
                              progress := 0, score := 0 }] := by
  have hcnt0 : enrollCountFor db uid act.course_id = 0 :=
    (enrollmentFor_eq_none_iff db uid act.course_id).1 henr
  have hdb1cnt : enrollCountFor (autoEnroll uid act.course_id db).1 uid act.course_id = 1 := by
    rw [enrollCountFor_autoEnroll_none uid act.course_id db henr, hcnt0]
  have hshape : (autoEnroll uid act.course_id db).1.user_courses
      = db.user_courses ++ [{ id := db.nextId, user_id := uid, course_id := act.course_id,
                              progress := 0, score := 0 }] := by
    rw [autoEnroll_not_enrolled uid act.course_id db henr]
  cases hep : progressFor db uid aid with
  | none =>
      rw [save_insert_eq uid aid s cb ans ts db act hact hep]
      unfold saveInsertOutcome
      dsimp only
      refine ⟨⟨_, rfl⟩, ?_, ?_, hshape⟩
      · apply enrollCount_agg_one
        exact hdb1cnt
      · rw [updateCourseProgress_courses]
        dsimp only
        rw [coursesFind_autoEnroll_none uid act.course_id db course henr hcourse]
        rfl
  | some ep =>
      rw [save_update_eq uid aid s cb ans ts db act ep hact hep]
      unfold saveUpdateOutcome
      dsimp only
      refine ⟨⟨_, rfl⟩, ?_, ?_, hshape⟩
      · apply enrollCount_agg_one
        exact hdb1cnt
      · rw [updateCourseProgress_courses]
        dsimp only
        rw [coursesFind_autoEnroll_none uid act.course_id db course henr hcourse]
        rfl

theorem claim5_auto_enrollment_witness :
    (∃ rows, (saveActivityProgress (some 7) 10 100 true none none dbFresh).1
        = Except.ok rows) ∧
    enrollCountFor (saveActivityProgress (some 7) 10 100 true none none dbFresh).2.1 7 1 = 1 ∧
    ((saveActivityProgress (some 7) 10 100 true none none dbFresh).2.1.courses.find?
        (fun c => c.id == 1)).map (fun c => c.total_enrollment) = some 6 ∧
    (autoEnroll 7 1 dbFresh).1.user_courses
      = dbFresh.user_courses ++ [{ id := 30, user_id := 7, course_id := 1,
                                   progress := 0, score := 0 }] :=
  claim5_auto_enrollment 7 10 100 true none none dbFresh
    { id := 10, course_id := 1, status := "published" } { id := 1, total_enrollment := 5 }
    (by decide) (by decide) (by decide)

/-- C6: calling saveActivityProgress with no valid user session returns a
failure tagged Unauthenticated, the store is unchanged (no writes to any
table), and no update statement is issued. -/
theorem claim6_unauthenticated (activityId : Nat) (score : Int) (completed : Bool)
    (answers : Option String) (timeSpent : Option Nat) (db : DB) :
    saveActivityProgress none activityId score completed answers timeSpent db
      = (Except.error SaveError.Unauthenticated, db, []) :=
  save_none_eq activityId score completed answers timeSpent db

/-- C7: calling saveActivityProgress with a valid session but an activityId
that resolves to no activity returns a failure tagged NotFound, the store is
unchanged (no writes to any table), and no update statement is issued. -/
theorem claim7_not_found (uid activityId : Nat) (score : Int) (completed : Bool)
    (answers : Option String) (timeSpent : Option Nat) (db : DB)
    (hact : db.activities.find? (fun a => a.id == activityId) = none) :
    saveActivityProgress (some uid) activityId score completed answers timeSpent db
      = (Except.error SaveError.NotFound, db, []) :=
  save_not_found_eq uid activityId score completed answers timeSpent db hact

theorem claim7_not_found_witness :
    saveActivityProgress (some 7) 99 100 true none none dbFresh
      = (Except.error SaveError.NotFound, dbFresh, []) :=
  claim7_not_found 7 99 100 true none none dbFresh (by decide)

/-- C8: for a course with zero published activities the aggregator returns
with the store unchanged — no enrollment row is inserted or updated and the
percentage division is never reached (no division by zero). -/
theorem claim8_zero_published (uid cid : Nat) (db : DB)
    (h : publishedActivities db cid = []) :
    updateCourseProgress uid cid db = (db, []) :=
  updateCourseProgress_no_published uid cid db h

theorem claim8_zero_published_witness :
    updateCourseProgress 7 2 dbFresh = (dbFresh, []) :=
  claim8_zero_published 7 2 dbFresh (by decide)

/-- C9 counterexample: the course-counter update issued during the
auto-enrollment of a first save targets the courses table with only the
course-id equality filter: it carries no equality filter on the acting
user's id, refuting the claim that every update statement does. -/
theorem claim9_counterexample :
    ({ table := "courses", filters := [("id", 1)] } : UpdateStmt)
        ∈ (saveActivityProgress (some 7) 10 100 true none none dbFresh).2.2 ∧
    UpdateStmt.hasUserEq 7 { table := "courses", filters := [("id", 1)] } = false := by decide

/-- C9 (amended): every update statement issued against the user-owned
tables (user_progress and user_courses) carries an explicit equality filter
on the acting user's id; the only unscoped update is the courses-counter
update, which filters on the course id alone. -/
theorem claim9_scoped_updates (uid aid cid : Nat) (s : Int) (cb : Bool)
    (ans : Option String) (ts : Option Nat) (db : DB) :
    (∀ st ∈ (updateCourseProgress uid cid db).2, st.hasUserEq uid = true) ∧
    (∀ st ∈ (saveActivityProgress (some uid) aid s cb ans ts db).2.2,
      st.table ≠ "courses" → st.hasUserEq uid = true) := by
  refine ⟨agg_trace_scoped uid cid db, ?_⟩
  cases hact : db.activities.find? (fun a => a.id == aid) with
  | none =>
      rw [save_not_found_eq uid aid s cb ans ts db hact]
      intro st hst
      cases hst
  | some act =>
      cases hep : progressFor db uid aid with
      | none =>
          rw [save_insert_eq uid aid s cb ans ts db act hact hep]
          unfold saveInsertOutcome
          dsimp only
          intro st hst hnec
          rcases List.mem_append.1 hst with h | h
          · exact absurd (autoEnroll_trace_tables uid act.course_id db st h) hnec
          · exact agg_trace_scoped uid act.course_id _ st h
      | some ep =>
          rw [save_update_eq uid aid s cb ans ts db act ep hact hep]
          unfold saveUpdateOutcome
          dsimp only
          intro st hst hnec
          rcases List.mem_append.1 hst with h | h
          · rcases List.mem_append.1 h with h2 | h2
            · exact absurd (autoEnroll_trace_tables uid act.course_id db st h2) hnec
            · simp only [List.mem_singleton] at h2
              subst h2
              simp [UpdateStmt.hasUserEq]
          · exact agg_trace_scoped uid act.course_id _ st h

theorem claim9_scoped_updates_witness :
    UpdateStmt.hasUserEq 7
        ({ table := "user_courses", filters := [("id", 30), ("user_id", 7)] } : UpdateStmt)
      = true :=
  (claim9_scoped_updates 7 10 1 100 true none none dbFresh).2
    { table := "user_courses", filters := [("id", 30), ("user_id", 7)] }
    (by decide) (by decide)

/-- C10: the completion flag is last-write-wins, not monotonic: a successful
save with completed = false over an existing progress row (even one with
completed = true) stores completed = false; concretely, re-saving activity
10 of dbBothDone as not completed lowers the enrollment progress percentage
from 100 to 50. -/
theorem claim10_last_write_wins (uid aid : Nat) (s : Int) (ans : Option String)
    (ts : Option Nat) (db : DB) (act : Activity) (ep : UserProgress)
    (hnd : (db.user_progress.map (fun p => p.id)).Nodup)
    (hact : db.activities.find? (fun a => a.id == aid) = some act)
    (hep : progressFor db uid aid = some ep) (_hcomp : ep.completed = true) :
    (∃ p, progressFor (saveActivityProgress (some uid) aid s false ans ts db).2.1 uid aid
        = some p ∧ p.completed = false) ∧
    ((enrollmentFor dbBothDone 7 1).map (fun uc => uc.progress) = some 100 ∧
     (enrollmentFor (saveActivityProgress (some 7) 10 0 false none none dbBothDone).2.1 7 1).map
        (fun uc => uc.progress) = some 50) := by
  refine ⟨⟨_, progressFor_save_update uid aid s false ans ts db act ep hnd hact hep, rfl⟩, ?_, ?_⟩
  · decide
  · decide

theorem claim10_last_write_wins_witness :
    (∃ p, progressFor (saveActivityProgress (some 7) 10 0 false none none dbBothDone).2.1 7 10
        = some p ∧ p.completed = false) ∧
    ((enrollmentFor dbBothDone 7 1).map (fun uc => uc.progress) = some 100 ∧
     (enrollmentFor (saveActivityProgress (some 7) 10 0 false none none dbBothDone).2.1 7 1).map
        (fun uc => uc.progress) = some 50) :=
  claim10_last_write_wins 7 10 0 none none dbBothDone
    { id := 10, course_id := 1, status := "published" }
    { id := 20, user_id := 7, activity_id := 10, course_id := 1, score := 100,
      completed := true, answers := none, time_spent := 10 }
    (by decide) (by decide) (by decide) (by decide)

end IIC
